import Mathlib

/-
Verification of the hashed static file server of this repository.
The server implementation is modelled from the specification (sections 3,
4, 6 and 7) because only its tests are present in the source tree; the
model is checked against the concrete values pinned by those tests.
-/

set_option maxRecDepth 100000

namespace FileServer

/-- ASCII bytes of a string, the model of a byte slice for ASCII content. -/
def strBytes (s : String) : List Nat := s.data.map Char.toNat

/-- Lowercase hexadecimal alphabet. -/
def hexChars : List Char := "0123456789abcdef".data

/-- Hexadecimal digit of the low nibble of a number. -/
def hexDigit (n : Nat) : Char := hexChars.getD (n % 16) '0'

/-- Lowercase hexadecimal rendering of a byte list, two digits per byte. -/
def bytesToHex : List Nat → List Char
  | [] => []
  | b :: bs => hexDigit (b / 16) :: hexDigit b :: bytesToHex bs

/-- Modulus of 32 bit machine arithmetic. -/
def m32 : Nat := 4294967296

/-- Addition modulo 2 to the 32. -/
def add32 (a b : Nat) : Nat := (a + b) % m32

/-- Left rotation of a 32 bit value. -/
def rotl32 (x s : Nat) : Nat := ((x <<< s) % m32) ||| (x >>> (32 - s))

/-- Bitwise complement of a 32 bit value. -/
def not32 (x : Nat) : Nat := x ^^^ 4294967295

/-- MD5 round constants, the integer parts of abs-sine values scaled to 32 bits. -/
def md5K : List Nat :=
  [0xd76aa478, 0xe8c7b756, 0x242070db, 0xc1bdceee,
   0xf57c0faf, 0x4787c62a, 0xa8304613, 0xfd469501,
   0x698098d8, 0x8b44f7af, 0xffff5bb1, 0x895cd7be,
   0x6b901122, 0xfd987193, 0xa679438e, 0x49b40821,
   0xf61e2562, 0xc040b340, 0x265e5a51, 0xe9b6c7aa,
   0xd62f105d, 0x02441453, 0xd8a1e681, 0xe7d3fbc8,
   0x21e1cde6, 0xc33707d6, 0xf4d50d87, 0x455a14ed,
   0xa9e3e905, 0xfcefa3f8, 0x676f02d9, 0x8d2a4c8a,
   0xfffa3942, 0x8771f681, 0x6d9d6122, 0xfde5380c,
   0xa4beea44, 0x4bdecfa9, 0xf6bb4b60, 0xbebfbc70,
   0x289b7ec6, 0xeaa127fa, 0xd4ef3085, 0x04881d05,
   0xd9d4d039, 0xe6db99e5, 0x1fa27cf8, 0xc4ac5665,
   0xf4292244, 0x432aff97, 0xab9423a7, 0xfc93a039,
   0x655b59c3, 0x8f0ccc92, 0xffeff47d, 0x85845dd1,
   0x6fa87e4f, 0xfe2ce6e0, 0xa3014314, 0x4e0811a1,
   0xf7537e82, 0xbd3af235, 0x2ad7d2bb, 0xeb86d391]

/-- MD5 per-round left rotation amounts. -/
def md5S : List Nat :=
  [7, 12, 17, 22, 7, 12, 17, 22, 7, 12, 17, 22, 7, 12, 17, 22,
   5, 9, 14, 20, 5, 9, 14, 20, 5, 9, 14, 20, 5, 9, 14, 20,
   4, 11, 16, 23, 4, 11, 16, 23, 4, 11, 16, 23, 4, 11, 16, 23,
   6, 10, 15, 21, 6, 10, 15, 21, 6, 10, 15, 21, 6, 10, 15, 21]

/-- MD5 nonlinear mixing function selected by the round index. -/
def md5F (i b c d : Nat) : Nat :=
  if i < 16 then (b &&& c) ||| (not32 b &&& d)
  else if i < 32 then (d &&& b) ||| (not32 d &&& c)
  else if i < 48 then b ^^^ c ^^^ d
  else c ^^^ (b ||| not32 d)

/-- MD5 message word index selected by the round index. -/
def md5G (i : Nat) : Nat :=
  if i < 16 then i
  else if i < 32 then (5 * i + 1) % 16
  else if i < 48 then (3 * i + 5) % 16
  else (7 * i) % 16

/-- One MD5 round acting on the state quadruple. -/
def md5Round (M : List Nat) (st : Nat × Nat × Nat × Nat) (i : Nat) :
    Nat × Nat × Nat × Nat :=
  let a := st.1
  let b := st.2.1
  let c := st.2.2.1
  let d := st.2.2.2
  let f := add32 (add32 (add32 (md5F i b c d) a) (md5K.getD i 0)) (M.getD (md5G i) 0)
  (d, add32 b (rotl32 f (md5S.getD i 0)), b, c)

/-- One 64 byte chunk folded into the MD5 state. -/
def md5Chunk (st : Nat × Nat × Nat × Nat) (M : List Nat) : Nat × Nat × Nat × Nat :=
  let r := (List.range 64).foldl (md5Round M) st
  (add32 st.1 r.1, add32 st.2.1 r.2.1, add32 st.2.2.1 r.2.2.1, add32 st.2.2.2 r.2.2.2)

/-- Little endian 32 bit word from four bytes. -/
def leWord (b0 b1 b2 b3 : Nat) : Nat :=
  b0 + b1 * 256 + b2 * 65536 + b3 * 16777216

/-- Little endian words of a byte list, four bytes at a time. -/
def toWords : List Nat → List Nat
  | b0 :: b1 :: b2 :: b3 :: rest => leWord b0 b1 b2 b3 :: toWords rest
  | _ => []

/-- Eight little endian bytes of a length-in-bits counter. -/
def leBytes8 (n : Nat) : List Nat :=
  [n % 256, n / 256 % 256, n / 65536 % 256, n / 16777216 % 256,
   n / 4294967296 % 256, n / 1099511627776 % 256,
   n / 281474976710656 % 256, n / 72057594037927936 % 256]

/-- MD5 padding: a 0x80 byte, zeros to 56 modulo 64, then the bit length. -/
def md5Pad (msg : List Nat) : List Nat :=
  let len := msg.length
  let z := (64 + 56 - ((len + 1) % 64)) % 64
  msg ++ 0x80 :: List.replicate z 0 ++ leBytes8 (len * 8)

/-- Split a byte list into chunks of 64 bytes, n chunks expected. -/
def chunksN : Nat → List Nat → List (List Nat)
  | 0, _ => []
  | n + 1, bs => bs.take 64 :: chunksN n (bs.drop 64)

/-- Four state words rendered as sixteen little endian digest bytes. -/
def stBytes (st : Nat × Nat × Nat × Nat) : List Nat :=
  [st.1 % 256, st.1 / 256 % 256, st.1 / 65536 % 256, st.1 / 16777216 % 256,
   st.2.1 % 256, st.2.1 / 256 % 256, st.2.1 / 65536 % 256, st.2.1 / 16777216 % 256,
   st.2.2.1 % 256, st.2.2.1 / 256 % 256, st.2.2.1 / 65536 % 256, st.2.2.1 / 16777216 % 256,
   st.2.2.2 % 256, st.2.2.2 / 256 % 256, st.2.2.2 / 65536 % 256, st.2.2.2 / 16777216 % 256]

/-- The sixteen MD5 digest bytes of a message. -/
def md5Bytes (msg : List Nat) : List Nat :=
  let padded := md5Pad msg
  let st := (chunksN (padded.length / 64) padded).foldl
    (fun st ch => md5Chunk st (toWords ch))
    (0x67452301, 0xefcdab89, 0x98badcfe, 0x10325476)
  stBytes st

/-- The 32 character lowercase hexadecimal MD5 digest of a message. -/
def md5Hex (msg : List Nat) : List Char := bytesToHex (md5Bytes msg)

/-- Sanity anchor: the digest of the string test matches the known value that
the hasher test truncates to seven characters. -/
theorem md5Hex_test_vector :
    (⟨md5Hex (strBytes "test")⟩ : String) = "098f6bcd4621d373cade4e832627b4f6" := by
  decide

/-- Decidable equality of fallible results, used to evaluate the model. -/
instance {e a : Type} [DecidableEq e] [DecidableEq a] : DecidableEq (Except e a)
  | .ok x, .ok y =>
    if h : x = y then isTrue (by rw [h])
    else isFalse (by intro hh; cases hh; exact h rfl)
  | .error x, .error y =>
    if h : x = y then isTrue (by rw [h])
    else isFalse (by intro hh; cases hh; exact h rfl)
  | .ok _, .error _ => isFalse (by intro hh; cases hh)
  | .error _, .ok _ => isFalse (by intro hh; cases hh)

/-- Modelled from the spec: the Hasher capability of section 4.1, a pair of a
digest operation over full byte content and a syntactic fingerprint check.
The digest may fail, modelling a failing stream read or digest step. -/
structure Hasher where
  hash : List Nat → Except String String
  isHash : String → Bool

/-- Modelled from the spec: the default hasher, an MD5 digest truncated to a
configured output length; file hasher.go is absent from the source tree. -/
structure MD5Hasher where
  hashLength : Nat

/-- Modelled from the spec: Hash returns the digest truncated to the configured
length, and the empty string when the length exceeds the 32 character natural
hexadecimal digest length. -/
def MD5Hasher.hashBytes (h : MD5Hasher) (bs : List Nat) : Except String String :=
  if 32 < h.hashLength then .ok ""
  else .ok ⟨(md5Hex bs).take h.hashLength⟩

/-- Modelled from the spec: IsHash is a pure syntactic check, true exactly when
the length matches the configured one and every character is hexadecimal. -/
def MD5Hasher.checkHash (h : MD5Hasher) (s : String) : Bool :=
  s.data.length == h.hashLength && s.data.all fun c => hexChars.contains c

/-- The MD5 hasher packaged as the polymorphic Hasher capability. -/
def MD5Hasher.hasher (h : MD5Hasher) : Hasher :=
  ⟨h.hashBytes, h.checkHash⟩

/-- The always failing hasher of the tests: every digest attempt returns the
test error, and no string is recognized as a fingerprint. -/
def faultyHasher : Hasher :=
  ⟨fun _ => .error "test error", fun _ => false⟩

/-- The degenerate hasher of the tests: every digest is the empty string. -/
def nullHasher : Hasher :=
  ⟨fun _ => .ok "", fun _ => false⟩

/-- A directory modelled as a finite association of file names to contents. -/
abbrev FS := List (String × String)

/-- Lookup of a file name in a directory. -/
def FS.find : FS → String → Option String
  | [], _ => none
  | (k, v) :: rest, name => if k = name then some v else FS.find rest name

/-- Remainder of a character list after a given prefix, when it is a prefix. -/
def stripPre : List Char → List Char → Option (List Char)
  | [], s => some s
  | _, [] => none
  | p :: ps, c :: cs => if p = c then stripPre ps cs else none

/-- True of characters other than the dot. -/
def notDot (c : Char) : Bool := c != '.'

/-- Split a file name at the final dot into stem and extension; the extension
keeps its leading dot and is empty when there is no dot. -/
def extSplit (cs : List Char) : List Char × List Char :=
  match cs.reverse.dropWhile notDot with
  | [] => (cs, [])
  | d :: stemRev => (stemRev.reverse, d :: (cs.reverse.takeWhile notDot).reverse)

/-- Result of splitting a request file name by the hashed naming convention. -/
structure SplitName where
  base : List Char
  fp : Option (List Char)
  ext : List Char
deriving DecidableEq

/-- Modelled from the spec: split a name by the name.FINGERPRINT.ext
convention of section 6; the fingerprint is the second to last dot separated
segment recognized by IsHash, or the last one when there is no extension. -/
def splitHashed (isH : String → Bool) (fn : List Char) : SplitName :=
  let se := extSplit fn
  if !se.2.isEmpty && isH ⟨se.2.tail⟩ then ⟨se.1, some se.2.tail, []⟩
  else
    let se2 := extSplit se.1
    if !se2.2.isEmpty && isH ⟨se2.2.tail⟩ then ⟨se2.1, some se2.2.tail, se.2⟩
    else ⟨se.1, none, se.2⟩

/-- Bare file name of a split, the name with the fingerprint segment removed. -/
def bareOf (sp : SplitName) : List Char := sp.base ++ sp.ext

/-- Hashed file name with a fingerprint embedded before the extension. -/
def hashedNameOf (base fp ext : List Char) : List Char := base ++ '.' :: (fp ++ ext)

/-- Modelled from the spec: an HTTP response in the fragment the file server
produces, a status, optional Location and Cache-Control headers, and a body. -/
structure Response where
  status : Nat
  location : Option String
  cacheControl : Option String
  body : String
deriving DecidableEq

/-- Modelled from the spec: the default not found responder, a plain 404. -/
def DefaultNotFoundHandler : Response := ⟨404, none, none, "Not Found\n"⟩

/-- Modelled from the spec: the default internal error responder, a plain 500
with the standard status text body. -/
def DefaultInternalServerErrorHandler : Response :=
  ⟨500, none, none, "Internal Server Error\n"⟩

/-- Modelled from the spec: the options of the mount configuration in section
6; absent options default as in the constructor with nil options. -/
structure Options where
  altDir : FS := []
  indexPage : Option String := none
  redirectTrailingSlash : Bool := false
  hasher : Option Hasher := none
  filenames : List String := []
  notFoundHandler : Response := DefaultNotFoundHandler
  internalServerErrorHandler : Response := DefaultInternalServerErrorHandler

/-- Modelled from the spec: the immutable server configuration of section 3. -/
structure Server where
  urlPrefix : String
  rootDir : FS
  options : Options

/-- Modelled from the spec: the constructor of the mount configuration. -/
def New (pre : String) (root : FS) (opts : Options) : Server :=
  ⟨pre, root, opts⟩

/-- Modelled from the spec: one of the three outcomes of path resolution in
section 4.2, with internal errors carrying the causing error value. -/
inductive Outcome where
  | serve (content : String)
  | redirect (location : String)
  | notFound
  | internalError (err : String)
deriving DecidableEq

/-- Base file name of a path, the part after the final slash. -/
def baseName (p : String) : List Char :=
  (p.data.reverse.takeWhile (· ≠ '/')).reverse

/-- Modelled from the spec: the explicit file name overrides; an entry whose
base name reduces to the requested bare name supplies the real file name. -/
def findOverride (isH : String → Bool) (bare : List Char) : List String → Option (List Char)
  | [] => none
  | p :: rest =>
    let fn := baseName p
    if bareOf (splitHashed isH fn) = bare then some fn else findOverride isH bare rest

/-- Modelled from the spec: the directory scan of step 4c, looking for a file
whose name already embeds a valid looking fingerprint for the bare name. -/
def scanFS (isH : String → Bool) (bare : List Char) : FS → Option (List Char)
  | [] => none
  | (k, _) :: rest =>
    let sp := splitHashed isH k.data
    if sp.fp.isSome ∧ bareOf sp = bare then some k.data
    else scanFS isH bare rest

/-- Lookup in the root directory with fallback to the alternate directory. -/
def lookup2 (s : Server) (fn : List Char) : Option String :=
  match FS.find s.rootDir ⟨fn⟩ with
  | some c => some c
  | none => FS.find s.options.altDir ⟨fn⟩

/-- A resolution result: the real file name to open and the canonical name
that the request path is expected to carry. -/
structure Resolved where
  real : List Char
  canonical : List Char
deriving DecidableEq

/-- Modelled from the spec: the hashed name resolution of step 4 in section
4.2: overrides first, then a directory scan of root and alternate directory,
then reading the bare file and hashing its content; a hashing failure is an
internal error, an absent file is not found, and an empty digest disables
hashing for the request. -/
def resolveHashed (s : Server) (h : Hasher) (fn : List Char) : Except Outcome Resolved :=
  let sp := splitHashed h.isHash fn
  let bare := bareOf sp
  match findOverride h.isHash bare s.options.filenames with
  | some ov => .ok ⟨ov, ov⟩
  | none =>
    match scanFS h.isHash bare s.rootDir with
    | some fn2 => .ok ⟨fn2, fn2⟩
    | none =>
      match scanFS h.isHash bare s.options.altDir with
      | some fn2 => .ok ⟨fn2, fn2⟩
      | none =>
        match lookup2 s bare with
        | none => .error .notFound
        | some content =>
          match h.hash (strBytes content) with
          | .error e => .error (.internalError e)
          | .ok "" => .ok ⟨bare, bare⟩
          | .ok hv => .ok ⟨bare, hashedNameOf sp.base hv.data sp.ext⟩

/-- Plain open of step 3: overrides applied, root then alternate directory. -/
def openPlain (s : Server) (fn : List Char) : Option String :=
  match findOverride (fun _ => false) fn s.options.filenames with
  | some real => lookup2 s real
  | none => lookup2 s fn

/-- Modelled from the spec: serve a relative file path, directly when no
hasher is configured, otherwise through hashed resolution with a redirect to
the canonical hashed path on mismatch. -/
def serveFile (s : Server) (fn : List Char) : Outcome :=
  match s.options.hasher with
  | none =>
    match openPlain s fn with
    | some content => .serve content
    | none => .notFound
  | some h =>
    match resolveHashed s h fn with
    | .error o => o
    | .ok r =>
      if fn = r.canonical then
        match lookup2 s r.real with
        | some content => .serve content
        | none => .notFound
      else
        .redirect (s.urlPrefix ++ "/" ++ (⟨r.canonical⟩ : String))

/-- Modelled from the spec: a directory root request serves the configured
index page and is not found otherwise. -/
def indexServe (s : Server) : Outcome :=
  match s.options.indexPage with
  | some ip => serveFile s ip.data
  | none => .notFound

/-- Modelled from the spec: a path with a trailing slash naming a file
redirects to the canonical non slash path when enabled; with a hasher the
target is the canonical hashed path, without one it is the relative name. -/
def trailingSlash (s : Server) (fn : List Char) : Outcome :=
  if s.options.redirectTrailingSlash then
    match s.options.hasher with
    | none =>
      if (openPlain s fn).isSome then .redirect ("../" ++ (⟨fn⟩ : String))
      else .notFound
    | some h =>
      match resolveHashed s h fn with
      | .error o => o
      | .ok r => .redirect (s.urlPrefix ++ "/" ++ (⟨r.canonical⟩ : String))
  else .notFound

/-- Modelled from the spec: the serving policy of section 4.2 on the path
relative to the mount prefix: the bare prefix redirects to the directory form
when trailing slash redirection is on and serves the index page otherwise, a
lone slash serves the index page, a trailing slash canonicalizes, a request
naming the index page exactly redirects to the parent directory, and any
other request resolves as a file. -/
def outcomeRel (s : Server) (q : List Char) : Outcome :=
  match q with
  | [] =>
    if s.options.redirectTrailingSlash then .redirect (s.urlPrefix ++ "/")
    else indexServe s
  | '/' :: rest =>
    if rest = [] then indexServe s
    else if rest.getLast? = some '/' then trailingSlash s rest.dropLast
    else if some (⟨rest⟩ : String) = s.options.indexPage then .redirect "./"
    else serveFile s rest
  | _ => .notFound

/-- Modelled from the spec: resolution of a full request path, stripping the
mount prefix first; a path outside the mount prefix is not found. -/
def outcome (s : Server) (path : String) : Outcome :=
  match stripPre s.urlPrefix.data path.data with
  | none => .notFound
  | some q => outcomeRel s q

/-- A request in the fragment the file server inspects. -/
structure Request where
  path : String
  rawQuery : String

/-- Modelled from the spec: the redirect helper, a 302 Found with Cache-Control
no-cache and the original query string appended verbatim to the location. -/
def redirectResponse (req : Request) (location : String) : Response :=
  let loc := if req.rawQuery = "" then location else location ++ "?" ++ req.rawQuery
  ⟨302, some loc, some "no-cache", ""⟩

/-- Modelled from the spec: the request handler; serves resolve to a 200 with
the file content, redirects go through the redirect helper, and the two error
outcomes are routed to the configured handlers. -/
def ServeHTTP (s : Server) (req : Request) : Response :=
  match outcome s req.path with
  | .serve content => ⟨200, none, none, content⟩
  | .redirect loc => redirectResponse req loc
  | .notFound => s.options.notFoundHandler
  | .internalError _ => s.options.internalServerErrorHandler

/-- Modelled from the spec: the programmatic accessor of section 4.4; without
a hasher the prefixed name is returned, with one the canonical hashed name;
errors propagate to the caller with an empty path, in the Go result shape of
a path paired with an optional error. -/
def HashedPath (s : Server) (fn : String) : String × Option String :=
  match s.options.hasher with
  | none => (s.urlPrefix ++ "/" ++ fn, none)
  | some h =>
    match resolveHashed s h fn.data with
    | .ok r => (s.urlPrefix ++ "/" ++ (⟨r.canonical⟩ : String), none)
    | .error (.internalError e) => ("", some e)
    | .error _ => ("", some "file not found")

/-- A server mounted at /assets with a hasher and defaults otherwise. -/
def hashedServer (root : FS) (h : Hasher) : Server :=
  New "/assets" root { hasher := some h }

/-- A server mounted at /assets with a hasher and trailing slash redirection. -/
def hashedServerRTS (root : FS) (h : Hasher) : Server :=
  New "/assets" root { hasher := some h, redirectTrailingSlash := true }

/-- A server mounted at /assets with the always failing hasher. -/
def faultyServer (root : FS) : Server :=
  New "/assets" root { hasher := some faultyHasher }

/- Supporting lemmas. -/

theorem stripPre_append (p cs : List Char) : stripPre p (p ++ cs) = some cs := by
  induction p with
  | nil => simp [stripPre]
  | cons a as ih => simpa [stripPre] using ih

theorem outcome_append (s : Server) (cs : List Char) :
    outcome s ⟨s.urlPrefix.data ++ cs⟩ = outcomeRel s cs := by
  simp [outcome, stripPre_append]

theorem extSplit_append (cs : List Char) : (extSplit cs).1 ++ (extSplit cs).2 = cs := by
  rcases h : cs.reverse.dropWhile notDot with _ | ⟨d, stemRev⟩ <;>
    simp only [extSplit, h]
  · simp
  · have hsplit : cs.reverse.takeWhile notDot ++ (d :: stemRev) = cs.reverse := by
      rw [← h, List.takeWhile_append_dropWhile]
    have h2 : (cs.reverse.takeWhile notDot ++ (d :: stemRev)).reverse = cs := by
      rw [hsplit, List.reverse_reverse]
    simpa [List.reverse_append] using h2

theorem splitHashed_false (fn : List Char) :
    splitHashed (fun _ => false) fn = ⟨(extSplit fn).1, none, (extSplit fn).2⟩ := by
  simp [splitHashed]

theorem bareOf_splitHashed_false (fn : List Char) :
    bareOf (splitHashed (fun _ => false) fn) = fn := by
  rw [splitHashed_false]
  simpa [bareOf] using extSplit_append fn

theorem scanFS_false (bare : List Char) (l : FS) :
    scanFS (fun _ => false) bare l = none := by
  induction l with
  | nil => rfl
  | cons e rest ih => simp [scanFS, splitHashed_false, ih]

theorem data_mk (cs : List Char) : (⟨cs⟩ : String).data = cs := rfl

theorem hexDigit_mem (n : Nat) : hexChars.contains (hexDigit n) = true := by
  have hlt : n % 16 < 16 := Nat.mod_lt _ (by norm_num)
  have hall : ∀ k, k < 16 → hexChars.contains (hexChars.getD k '0') = true := by decide
  exact hall _ hlt

theorem bytesToHex_all (bs : List Nat) :
    ∀ c ∈ bytesToHex bs, hexChars.contains c = true := by
  induction bs with
  | nil => intro c hc; cases hc
  | cons b rest ih =>
    intro c hc
    rcases hc with _ | ⟨_, hc⟩
    · exact hexDigit_mem _
    · rcases hc with _ | ⟨_, hc⟩
      · exact hexDigit_mem _
      · exact ih c hc

theorem bytesToHex_length (bs : List Nat) : (bytesToHex bs).length = 2 * bs.length := by
  induction bs with
  | nil => rfl
  | cons b rest ih => simp [bytesToHex, ih]; omega

theorem md5Bytes_length (msg : List Nat) : (md5Bytes msg).length = 16 := rfl

theorem md5Hex_length (msg : List Nat) : (md5Hex msg).length = 32 := by
  rw [md5Hex, bytesToHex_length, md5Bytes_length]

/-- C7: for every fingerprint length and every byte input, the Hash operation
of the MD5 hasher succeeds, its fingerprint satisfies IsHash whenever the
length is within the 32 character natural digest length, and the result is
the empty string with no error when the length exceeds it. -/
theorem C7_hash_isHash_roundtrip (n : Nat) (input : List Nat) :
    (n ≤ 32 → ∃ s, MD5Hasher.hashBytes ⟨n⟩ input = .ok s ∧
      MD5Hasher.checkHash ⟨n⟩ s = true) ∧
    (32 < n → MD5Hasher.hashBytes ⟨n⟩ input = .ok "") := by
  constructor
  · intro hn
    refine ⟨⟨(md5Hex input).take n⟩, ?_, ?_⟩
    · simp [MD5Hasher.hashBytes, Nat.not_lt.mpr hn]
    · have hlen : ((md5Hex input).take n).length = n := by
        rw [List.length_take, md5Hex_length]; omega
      have hmem : ∀ c ∈ (md5Hex input).take n, hexChars.contains c = true := by
        intro c hc
        exact bytesToHex_all (md5Bytes input) c (List.take_subset _ _ hc)
      simp only [MD5Hasher.checkHash, data_mk, Bool.and_eq_true, beq_iff_eq,
        List.all_eq_true]
      exact ⟨hlen, hmem⟩
  · intro hn
    simp [MD5Hasher.hashBytes, hn]

/-- Witness for C7 at length 8 on the bytes of the string test, and at length
100 for the degenerate case. -/
theorem C7_hash_isHash_roundtrip_witness :
    (∃ s, MD5Hasher.hashBytes ⟨8⟩ (strBytes "test") = .ok s ∧
      MD5Hasher.checkHash ⟨8⟩ s = true) ∧
    MD5Hasher.hashBytes ⟨100⟩ (strBytes "test") = .ok "" :=
  ⟨(C7_hash_isHash_roundtrip 8 (strBytes "test")).1 (by decide),
   (C7_hash_isHash_roundtrip 100 (strBytes "test")).2 (by decide)⟩

/-- C8: every redirect outcome produced by the file server turns into a 302
Found response whose Cache-Control header is no-cache and whose Location is
the target with the original query string appended verbatim when present. -/
theorem C8_redirect_found_nocache_query (s : Server) (req : Request) (loc : String)
    (h : outcome s req.path = .redirect loc) :
    ServeHTTP s req =
      ⟨302, some (if req.rawQuery = "" then loc else loc ++ "?" ++ req.rawQuery),
        some "no-cache", ""⟩ := by
  simp [ServeHTTP, h, redirectResponse]

/-- Witness for C8: a redirect of the hashed data file carrying the query
string test=123 appended to the location. -/
theorem C8_redirect_found_nocache_query_witness :
    outcome (hashedServer [("data", "file content")] (MD5Hasher.hasher ⟨8⟩))
        "/assets/data" = .redirect "/assets/data.d10b4c3f" ∧
    ServeHTTP (hashedServer [("data", "file content")] (MD5Hasher.hasher ⟨8⟩))
        ⟨"/assets/data", "test=123"⟩ =
      ⟨302, some "/assets/data.d10b4c3f?test=123", some "no-cache", ""⟩ :=
  ⟨by decide,
   C8_redirect_found_nocache_query
     (hashedServer [("data", "file content")] (MD5Hasher.hasher ⟨8⟩))
     ⟨"/assets/data", "test=123"⟩ "/assets/data.d10b4c3f" (by decide)⟩

/-- With the always failing hasher, resolution of a file present in the root
directory ends in an internal error carrying the hasher error. -/
theorem resolveHashed_faulty (root : FS) (fn : List Char) (content : String)
    (hfound : FS.find root ⟨fn⟩ = some content) :
    resolveHashed (faultyServer root) faultyHasher fn =
      .error (.internalError "test error") := by
  simp only [resolveHashed, faultyServer, New, faultyHasher, bareOf_splitHashed_false,
    scanFS_false, findOverride, lookup2, FS.find, hfound]

/-- C4: with a hasher whose Hash always fails, a request for an existing file
without a fingerprint in its name resolves to the internal error outcome,
never the not found one, and with the default handler the response is a 500
whose body is exactly the Internal Server Error line. -/
theorem C4_hasher_error_internal_server_error (root : FS) (fn : List Char)
    (content : String) (hne : fn ≠ []) (hsl : fn.getLast? ≠ some '/')
    (hfound : FS.find root ⟨fn⟩ = some content) :
    outcome (faultyServer root) ⟨"/assets".data ++ '/' :: fn⟩ =
      .internalError "test error" ∧
    ServeHTTP (faultyServer root) ⟨⟨"/assets".data ++ '/' :: fn⟩, ""⟩ =
      DefaultInternalServerErrorHandler ∧
    DefaultInternalServerErrorHandler = ⟨500, none, none, "Internal Server Error\n"⟩ := by
  have h0 : outcome (faultyServer root) ⟨"/assets".data ++ '/' :: fn⟩ =
      outcomeRel (faultyServer root) ('/' :: fn) := outcome_append _ _
  have h1 : outcomeRel (faultyServer root) ('/' :: fn) =
      (if fn = [] then indexServe (faultyServer root)
       else if fn.getLast? = some '/' then trailingSlash (faultyServer root) fn.dropLast
       else if some (⟨fn⟩ : String) = (faultyServer root).options.indexPage then
         .redirect "./"
       else serveFile (faultyServer root) fn) := rfl
  have h2 : serveFile (faultyServer root) fn =
      (match resolveHashed (faultyServer root) faultyHasher fn with
       | .error o => o
       | .ok r =>
         if fn = r.canonical then
           match lookup2 (faultyServer root) r.real with
           | some c => .serve c
           | none => .notFound
         else .redirect ((faultyServer root).urlPrefix ++ "/" ++ (⟨r.canonical⟩ : String))) :=
    rfl
  have hout : outcome (faultyServer root) ⟨"/assets".data ++ '/' :: fn⟩ =
      .internalError "test error" := by
    rw [h0, h1, if_neg hne, if_neg hsl, if_neg (by simp [faultyServer, New]), h2,
      resolveHashed_faulty root fn content hfound]
  refine ⟨hout, ?_, rfl⟩
  have h3 : ServeHTTP (faultyServer root) ⟨⟨"/assets".data ++ '/' :: fn⟩, ""⟩ =
      (match outcome (faultyServer root) ⟨"/assets".data ++ '/' :: fn⟩ with
       | .serve c => (⟨200, none, none, c⟩ : Response)
       | .redirect loc => redirectResponse ⟨⟨"/assets".data ++ '/' :: fn⟩, ""⟩ loc
       | .notFound => (faultyServer root).options.notFoundHandler
       | .internalError _ => (faultyServer root).options.internalServerErrorHandler) := rfl
  rw [h3, hout]
  rfl

/-- Witness for C4 at the scenario of the internal server error test. -/
theorem C4_hasher_error_internal_server_error_witness :
    outcome (faultyServer [("data.txt", "not to be hashed")]) "/assets/data.txt" =
      .internalError "test error" ∧
    ServeHTTP (faultyServer [("data.txt", "not to be hashed")]) ⟨"/assets/data.txt", ""⟩ =
      DefaultInternalServerErrorHandler ∧
    DefaultInternalServerErrorHandler = ⟨500, none, none, "Internal Server Error\n"⟩ :=
  C4_hasher_error_internal_server_error [("data.txt", "not to be hashed")]
    "data.txt".data "not to be hashed" (by decide) (by decide) (by decide)

/-- C5: with a hasher whose Hash fails with an error, the programmatic
HashedPath accessor for an existing file returns the empty path together with
exactly that error value. -/
theorem C5_hashedpath_error_propagates (root : FS) (fn : List Char) (content : String)
    (hfound : FS.find root ⟨fn⟩ = some content) :
    HashedPath (faultyServer root) ⟨fn⟩ = ("", some "test error") := by
  have h1 : HashedPath (faultyServer root) ⟨fn⟩ =
      (match resolveHashed (faultyServer root) faultyHasher fn with
       | .ok r => ((faultyServer root).urlPrefix ++ "/" ++ (⟨r.canonical⟩ : String), none)
       | .error (.internalError e) => ("", some e)
       | .error _ => ("", some "file not found")) := rfl
  rw [h1, resolveHashed_faulty root fn content hfound]

/-- Witness for C5 at the scenario of the hashed path error test. -/
theorem C5_hashedpath_error_propagates_witness :
    HashedPath (faultyServer [("data.txt", "not to be hashed")]) "data.txt" =
      ("", some "test error") :=
  C5_hashedpath_error_propagates [("data.txt", "not to be hashed")] "data.txt".data
    "not to be hashed" (by decide)

/-- C1: under a configured hasher, a request whose file name differs from the
canonical hashed name resolves to a 302 redirect to the canonical hashed path
under the url prefix, and a request matching the canonical hashed name
exactly serves the resolved file directly with no redirect. -/
theorem C1_hasher_redirect_and_exact_serve (root : FS) (h : Hasher) (fn : List Char)
    (r : Resolved) (hne : fn ≠ []) (hsl : fn.getLast? ≠ some '/')
    (hres : resolveHashed (hashedServer root h) h fn = .ok r) :
    (fn ≠ r.canonical →
      outcome (hashedServer root h) ⟨"/assets".data ++ '/' :: fn⟩ =
        .redirect ("/assets/" ++ (⟨r.canonical⟩ : String))) ∧
    (fn = r.canonical → ∀ content,
      lookup2 (hashedServer root h) r.real = some content →
      outcome (hashedServer root h) ⟨"/assets".data ++ '/' :: fn⟩ = .serve content) := by
  have h0 : outcome (hashedServer root h) ⟨"/assets".data ++ '/' :: fn⟩ =
      outcomeRel (hashedServer root h) ('/' :: fn) := outcome_append _ _
  have h1 : outcomeRel (hashedServer root h) ('/' :: fn) =
      (if fn = [] then indexServe (hashedServer root h)
       else if fn.getLast? = some '/' then
         trailingSlash (hashedServer root h) fn.dropLast
       else if some (⟨fn⟩ : String) = (hashedServer root h).options.indexPage then
         .redirect "./"
       else serveFile (hashedServer root h) fn) := rfl
  have h2 : serveFile (hashedServer root h) fn =
      (match resolveHashed (hashedServer root h) h fn with
       | .error o => o
       | .ok rr =>
         if fn = rr.canonical then
           match lookup2 (hashedServer root h) rr.real with
           | some c => .serve c
           | none => .notFound
         else
           .redirect ((hashedServer root h).urlPrefix ++ "/" ++ (⟨rr.canonical⟩ : String))) :=
    rfl
  have h3 : serveFile (hashedServer root h) fn =
      (if fn = r.canonical then
         match lookup2 (hashedServer root h) r.real with
         | some c => .serve c
         | none => .notFound
       else .redirect ("/assets/" ++ (⟨r.canonical⟩ : String))) := by
    rw [h2, hres]
    rfl
  constructor
  · intro hneq
    rw [h0, h1, if_neg hne, if_neg hsl, if_neg (by simp [hashedServer, New]), h3,
      if_neg hneq]
  · intro heq content hlook
    rw [h0, h1, if_neg hne, if_neg hsl, if_neg (by simp [hashedServer, New]), h3,
      if_pos heq, hlook]

/-- Witness for C1 at the scenarios of the hasher redirect tests: the bare
name and the bare name with extension redirect to the canonical hashed path,
a stale fingerprint redirects to the canonical hashed path, and the exact
canonical hashed path serves the content directly. -/
theorem C1_hasher_redirect_and_exact_serve_witness :
    outcome (hashedServer [("data", "file content")] (MD5Hasher.hasher ⟨8⟩))
        "/assets/data" = .redirect "/assets/data.d10b4c3f" ∧
    outcome (hashedServer [("data.txt", "file content")] (MD5Hasher.hasher ⟨8⟩))
        "/assets/data.txt" = .redirect "/assets/data.d10b4c3f.txt" ∧
    outcome (hashedServer [("data", "file content")] (MD5Hasher.hasher ⟨8⟩))
        "/assets/data.00000000" = .redirect "/assets/data.d10b4c3f" ∧
    outcome (hashedServer [("data", "file content")] (MD5Hasher.hasher ⟨8⟩))
        "/assets/data.d10b4c3f" = .serve "file content" :=
  ⟨(C1_hasher_redirect_and_exact_serve [("data", "file content")]
      (MD5Hasher.hasher ⟨8⟩) "data".data ⟨"data".data, "data.d10b4c3f".data⟩
      (by decide) (by decide) (by decide)).1 (by decide),
   (C1_hasher_redirect_and_exact_serve [("data.txt", "file content")]
      (MD5Hasher.hasher ⟨8⟩) "data.txt".data ⟨"data.txt".data, "data.d10b4c3f.txt".data⟩
      (by decide) (by decide) (by decide)).1 (by decide),
   (C1_hasher_redirect_and_exact_serve [("data", "file content")]
      (MD5Hasher.hasher ⟨8⟩) "data.00000000".data ⟨"data".data, "data.d10b4c3f".data⟩
      (by decide) (by decide) (by decide)).1 (by decide),
   (C1_hasher_redirect_and_exact_serve [("data", "file content")]
      (MD5Hasher.hasher ⟨8⟩) "data.d10b4c3f".data ⟨"data".data, "data.d10b4c3f".data⟩
      (by decide) (by decide) (by decide)).2 (by decide) "file content" (by decide)⟩

/-- C3: under trailing slash redirection, a request path carrying a trailing
slash whose file part resolves resolves to a 302 redirect to the canonical
non slash path under the url prefix, with hash canonicalization applied. -/
theorem C3_trailing_slash_hash_canonical_redirect (root : FS) (h : Hasher)
    (fn : List Char) (r : Resolved)
    (hres : resolveHashed (hashedServerRTS root h) h fn = .ok r) :
    outcome (hashedServerRTS root h) ⟨"/assets".data ++ '/' :: (fn ++ ['/'])⟩ =
      .redirect ("/assets/" ++ (⟨r.canonical⟩ : String)) := by
  have h0 : outcome (hashedServerRTS root h) ⟨"/assets".data ++ '/' :: (fn ++ ['/'])⟩ =
      outcomeRel (hashedServerRTS root h) ('/' :: (fn ++ ['/'])) := outcome_append _ _
  have h1 : outcomeRel (hashedServerRTS root h) ('/' :: (fn ++ ['/'])) =
      (if fn ++ ['/'] = [] then indexServe (hashedServerRTS root h)
       else if (fn ++ ['/']).getLast? = some '/' then
         trailingSlash (hashedServerRTS root h) (fn ++ ['/']).dropLast
       else if some (⟨fn ++ ['/']⟩ : String) = (hashedServerRTS root h).options.indexPage then
         .redirect "./"
       else serveFile (hashedServerRTS root h) (fn ++ ['/'])) := rfl
  have hne2 : fn ++ ['/'] ≠ [] := by simp
  have hlast : (fn ++ ['/']).getLast? = some '/' := by simp
  have hdrop : (fn ++ ['/']).dropLast = fn := by simp
  have h2 : trailingSlash (hashedServerRTS root h) fn =
      (match resolveHashed (hashedServerRTS root h) h fn with
       | .error o => o
       | .ok rr =>
         .redirect ((hashedServerRTS root h).urlPrefix ++ "/" ++ (⟨rr.canonical⟩ : String))) :=
    rfl
  rw [h0, h1, if_neg hne2, if_pos hlast, hdrop, h2, hres]
  rfl

/-- Witness for C3 at the scenarios of the trailing slash redirect tests: the
canonical hashed path with a trailing slash redirects to itself without the
slash, and the bare path with a trailing slash redirects in one step to the
canonical hashed path. -/
theorem C3_trailing_slash_hash_canonical_redirect_witness :
    outcome (hashedServerRTS [("data.txt", "file content")] (MD5Hasher.hasher ⟨8⟩))
        "/assets/data.d10b4c3f.txt/" = .redirect "/assets/data.d10b4c3f.txt" ∧
    outcome (hashedServerRTS [("data.txt", "file content")] (MD5Hasher.hasher ⟨8⟩))
        "/assets/data.txt/" = .redirect "/assets/data.d10b4c3f.txt" :=
  ⟨C3_trailing_slash_hash_canonical_redirect [("data.txt", "file content")]
      (MD5Hasher.hasher ⟨8⟩) "data.d10b4c3f.txt".data
      ⟨"data.txt".data, "data.d10b4c3f.txt".data⟩ (by decide),
   C3_trailing_slash_hash_canonical_redirect [("data.txt", "file content")]
      (MD5Hasher.hasher ⟨8⟩) "data.txt".data
      ⟨"data.txt".data, "data.d10b4c3f.txt".data⟩ (by decide)⟩

/-- C2: a file whose literal name embeds a syntactically valid fingerprint is
served at its exact literal path with a 200 and its own bytes, for every
content, with no redirect and no revalidation of the fingerprint against the
content; in particular the fingerprint 12345678 differs from the digest
ca654591 of the content gopher and the file is served anyway. -/
theorem C2_hashed_literal_served_without_revalidation :
    MD5Hasher.hashBytes ⟨8⟩ (strBytes "gopher") = .ok "ca654591" ∧
    ∀ content : String,
      outcome (hashedServer [("data.12345678.txt", content)] (MD5Hasher.hasher ⟨8⟩))
          "/assets/data.12345678.txt" = .serve content ∧
      ServeHTTP (hashedServer [("data.12345678.txt", content)] (MD5Hasher.hasher ⟨8⟩))
          ⟨"/assets/data.12345678.txt", ""⟩ = ⟨200, none, none, content⟩ :=
  ⟨by decide, fun content => ⟨rfl, rfl⟩⟩

/-- C6: an explicit Filenames override entry for a bare name wins over any
resolution from the directories, and without an override the scan of the
alternate directory supplies the hashed path. -/
theorem C6_filenames_override_beats_altdir :
    (∀ (root alt : FS) (fnames : List String) (h : Hasher) (fn ov : List Char),
      findOverride h.isHash (bareOf (splitHashed h.isHash fn)) fnames = some ov →
      HashedPath
          (New "/assets" root { altDir := alt, hasher := some h, filenames := fnames })
          ⟨fn⟩ =
        ("/assets/" ++ (⟨ov⟩ : String), none)) ∧
    (∀ (root alt : FS) (h : Hasher) (fn fn2 : List Char),
      scanFS h.isHash (bareOf (splitHashed h.isHash fn)) root = none →
      scanFS h.isHash (bareOf (splitHashed h.isHash fn)) alt = some fn2 →
      HashedPath (New "/assets" root { altDir := alt, hasher := some h }) ⟨fn⟩ =
        ("/assets/" ++ (⟨fn2⟩ : String), none)) := by
  constructor
  · intro root alt fnames h fn ov hov
    have h1 : HashedPath
        (New "/assets" root { altDir := alt, hasher := some h, filenames := fnames })
        ⟨fn⟩ =
        (match resolveHashed
            (New "/assets" root { altDir := alt, hasher := some h, filenames := fnames })
            h fn with
         | .ok r => ("/assets" ++ "/" ++ (⟨r.canonical⟩ : String), none)
         | .error (.internalError e) => ("", some e)
         | .error _ => ("", some "file not found")) := rfl
    have hfn : (New "/assets" root
          { altDir := alt, hasher := some h, filenames := fnames }).options.filenames =
        fnames := rfl
    have h2 : resolveHashed
        (New "/assets" root { altDir := alt, hasher := some h, filenames := fnames })
        h fn = .ok ⟨ov, ov⟩ := by
      simp only [resolveHashed]
      rw [hfn, hov]
    rw [h1, h2]
    rfl
  · intro root alt h fn fn2 hroot halt
    have h1 : HashedPath (New "/assets" root { altDir := alt, hasher := some h }) ⟨fn⟩ =
        (match resolveHashed (New "/assets" root { altDir := alt, hasher := some h })
            h fn with
         | .ok r => ("/assets" ++ "/" ++ (⟨r.canonical⟩ : String), none)
         | .error (.internalError e) => ("", some e)
         | .error _ => ("", some "file not found")) := rfl
    have hr : (New "/assets" root { altDir := alt, hasher := some h }).rootDir =
        root := rfl
    have ha : (New "/assets" root
          { altDir := alt, hasher := some h }).options.altDir = alt := rfl
    have h2 : resolveHashed (New "/assets" root { altDir := alt, hasher := some h })
        h fn = .ok ⟨fn2, fn2⟩ := by
      simp only [resolveHashed]
      rw [hr, ha, hroot, halt]
      rfl
    rw [h1, h2]
    rfl

/-- Witness for C6 at the scenarios of the hashed path tests with an
alternate directory, with and without a Filenames override. -/
theorem C6_filenames_override_beats_altdir_witness :
    HashedPath
        (New "/assets" []
          { altDir := [("data.12345678.txt", "file alt content")],
            hasher := some (MD5Hasher.hasher ⟨8⟩),
            filenames := ["/alt/data.abcdef01.txt"] })
        "data.txt" = ("/assets/data.abcdef01.txt", none) ∧
    HashedPath
        (New "/assets" []
          { altDir := [("data.12345678.txt", "file alt content")],
            hasher := some (MD5Hasher.hasher ⟨8⟩) })
        "data.txt" = ("/assets/data.12345678.txt", none) :=
  ⟨C6_filenames_override_beats_altdir.1 [] [("data.12345678.txt", "file alt content")]
      ["/alt/data.abcdef01.txt"] (MD5Hasher.hasher ⟨8⟩) "data.txt".data
      "data.abcdef01.txt".data (by decide),
   C6_filenames_override_beats_altdir.2 [] [("data.12345678.txt", "file alt content")]
      (MD5Hasher.hasher ⟨8⟩) "data.txt".data "data.12345678.txt".data
      (by decide) (by decide)⟩

/-- C9: with an index page configured and trailing slash redirection off, a
request for the bare mount prefix serves the index page content with a 200,
and a request naming the index page file exactly responds 302 Found with the
parent directory as the location. -/
theorem C9_index_page_serve_and_redirect :
    ServeHTTP
        (New "/assets" [("index.html", "index")] { indexPage := some "index.html" })
        ⟨"/assets", ""⟩ = ⟨200, none, none, "index"⟩ ∧
    ServeHTTP
        (New "/assets" [("index.html", "index")] { indexPage := some "index.html" })
        ⟨"/assets/index.html", ""⟩ = ⟨302, some "./", some "no-cache", ""⟩ := by
  decide

/-- C10: with trailing slash redirection on and an index page configured, a
request for the bare mount prefix does not serve the index page content; it
responds 302 Found with the prefix and a trailing slash as the location. -/
theorem C10_prefix_redirects_to_dir_slash :
    ServeHTTP
        (New "/assets" [("index.html", "index")]
          { indexPage := some "index.html", redirectTrailingSlash := true })
        ⟨"/assets", ""⟩ = ⟨302, some "/assets/", some "no-cache", ""⟩ ∧
    (ServeHTTP
        (New "/assets" [("index.html", "index")]
          { indexPage := some "index.html", redirectTrailingSlash := true })
        ⟨"/assets", ""⟩).status ≠ 200 ∧
    (ServeHTTP
        (New "/assets" [("index.html", "index")]
          { indexPage := some "index.html", redirectTrailingSlash := true })
        ⟨"/assets", ""⟩).body ≠ "index" := by
  decide

end FileServer
